import Mathlib

/-
Verification of the data-validation engine of src/05_exception_handling.py
(class DataValidationSystem, lines 555-596).

Embedding notes.
* A Python predicate is an arbitrary callable that may raise; we embed it as
  a total function returning Except String Bool, where Except.error desc
  stands for a raised runtime fault whose str() is desc, and Except.ok b for
  a normal return of the boolean b.
* The dictionary self.validation_rules is embedded as an association list in
  insertion order (Python dicts preserve insertion order); the value of each
  key is the list of (rule_func, error_message) pairs in registration order.
* A record (the data argument of validate_data) is a list of
  (field_name, value) pairs in iteration order.
* The engine state is the pair of its two attributes, validation_rules and
  validation_errors; methods that mutate self are functions from the state
  to (result, new state).
-/

namespace Week1

/-- One registered rule: the pair (rule_func, error_message) appended by
add_validation_rule. -/
structure Rule (α : Type) where
  rule_func : α → Except String Bool
  error_message : String

/-- The state of a DataValidationSystem instance: the attributes set in
__init__ (validation_rules = {}, validation_errors = []). -/
structure DataValidationSystem (α : Type) where
  validation_rules : List (String × List (Rule α))
  validation_errors : List String

/-- Insert a rule into the dictionary: if the key is present, append the
rule to its list; otherwise add the key at the end with a singleton list.
This is the combined effect of the two statements of add_validation_rule
(create empty list if absent, then append). -/
def append_rule {α : Type} : List (String × List (Rule α)) → String → Rule α →
    List (String × List (Rule α))
  | [], f, r => [(f, [r])]
  | (g, rs) :: rest, f, r =>
    if g = f then (g, rs ++ [r]) :: rest else (g, rs) :: append_rule rest f r

/-- DataValidationSystem.add_validation_rule. -/
def add_validation_rule {α : Type} (st : DataValidationSystem α)
    (field_name : String) (f : α → Except String Bool) (error_message : String) :
    DataValidationSystem α :=
  { st with validation_rules :=
      append_rule st.validation_rules field_name ⟨f, error_message⟩ }

/-- The for-loop of validate_field over the rule list of the field.  Each
iteration runs the try block: if rule_func(value) raises, the except branch
appends str(e) (the fault description alone) and returns False; if it
returns False, ValidationError(f"{field_name}: {error_message}") is raised
and caught by the same except branch, so that string is appended and False
is returned; if it returns True the loop continues.  Falling off the loop
returns True. -/
def run_rules {α : Type} (st : DataValidationSystem α) (field_name : String)
    (value : α) : List (Rule α) → Bool × DataValidationSystem α
  | [] => (true, st)
  | r :: rest =>
    match r.rule_func value with
    | Except.error e =>
      (false, { st with validation_errors := st.validation_errors ++ [e] })
    | Except.ok b =>
      if b then run_rules st field_name value rest
      else (false, { st with validation_errors :=
        st.validation_errors ++ [field_name ++ ": " ++ r.error_message] })

/-- DataValidationSystem.validate_field: early return True when the field
has no entry in validation_rules, otherwise the rule loop. -/
def validate_field {α : Type} (st : DataValidationSystem α)
    (field_name : String) (value : α) : Bool × DataValidationSystem α :=
  match st.validation_rules.lookup field_name with
  | none => (true, st)
  | some rules => run_rules st field_name value rules

/-- The for-loop of validate_data over the items of the record, carrying
the is_valid flag (set to False whenever validate_field returns False). -/
def validate_fold {α : Type} (st : DataValidationSystem α) (is_valid : Bool) :
    List (String × α) → Bool × DataValidationSystem α
  | [] => (is_valid, st)
  | (f, v) :: rest =>
    match validate_field st f v with
    | (ok, st1) => validate_fold st1 (is_valid && ok) rest

/-- DataValidationSystem.validate_data: clear validation_errors, then loop
over all items of the record. -/
def validate_data {α : Type} (st : DataValidationSystem α)
    (data : List (String × α)) : Bool × DataValidationSystem α :=
  validate_fold { st with validation_errors := [] } true data

/-- DataValidationSystem.get_errors: the contents of the returned copy of
validation_errors (aliasing of the copy is treated separately by the
ErrStore model below). -/
def get_errors {α : Type} (st : DataValidationSystem α) : List String :=
  st.validation_errors

/-! Derived descriptions of the outcome of a field validation, used to
state the theorems; they are related to run_rules / validate_field by the
lemmas run_rules_spec and validate_field_spec below. -/

/-- The (boolean result, appended messages) of the rule loop, computed
without threading the engine state. -/
def rules_result {α : Type} (field_name : String) (value : α) :
    List (Rule α) → Bool × List String
  | [] => (true, [])
  | r :: rest =>
    match r.rule_func value with
    | Except.error e => (false, [e])
    | Except.ok b =>
      if b then rules_result field_name value rest
      else (false, [field_name ++ ": " ++ r.error_message])

/-- The (boolean result, appended messages) of validate_field, as a
function of the rule dictionary alone. -/
def field_result {α : Type} (dict : List (String × List (Rule α)))
    (field_name : String) (value : α) : Bool × List String :=
  match dict.lookup field_name with
  | none => (true, [])
  | some rules => rules_result field_name value rules

/-- Conjunction of the per-field boolean results over a record. -/
def all_ok {α : Type} (dict : List (String × List (Rule α))) :
    List (String × α) → Bool
  | [] => true
  | (f, v) :: rest => (field_result dict f v).1 && all_ok dict rest

/-- Concatenation of the per-field appended messages over a record. -/
def all_msgs {α : Type} (dict : List (String × List (Rule α))) :
    List (String × α) → List String
  | [] => []
  | (f, v) :: rest => (field_result dict f v).2 ++ all_msgs dict rest

theorem run_rules_spec {α : Type} (st : DataValidationSystem α)
    (field_name : String) (value : α) (rules : List (Rule α)) :
    run_rules st field_name value rules =
      ((rules_result field_name value rules).1,
       { st with validation_errors :=
           st.validation_errors ++ (rules_result field_name value rules).2 }) := by
  induction rules with
  | nil => simp [run_rules, rules_result]
  | cons r rest ih =>
    cases h : r.rule_func value with
    | error e => simp [run_rules, rules_result, h]
    | ok b =>
      cases b with
      | false => simp [run_rules, rules_result, h]
      | true => simp [run_rules, rules_result, h, ih]

theorem validate_field_spec {α : Type} (st : DataValidationSystem α)
    (field_name : String) (value : α) :
    validate_field st field_name value =
      ((field_result st.validation_rules field_name value).1,
       { st with validation_errors := st.validation_errors ++
           (field_result st.validation_rules field_name value).2 }) := by
  unfold validate_field field_result
  cases h : st.validation_rules.lookup field_name with
  | none => simp
  | some rules => simp [run_rules_spec]

theorem validate_fold_spec {α : Type} (st : DataValidationSystem α)
    (is_valid : Bool) (data : List (String × α)) :
    validate_fold st is_valid data =
      (is_valid && all_ok st.validation_rules data,
       { st with validation_errors :=
           st.validation_errors ++ all_msgs st.validation_rules data }) := by
  induction data generalizing st is_valid with
  | nil => simp [validate_fold, all_ok, all_msgs]
  | cons p rest ih =>
    obtain ⟨f, v⟩ := p
    simp only [validate_fold, validate_field_spec, ih, all_ok, all_msgs]
    simp [Bool.and_assoc]

theorem validate_data_spec {α : Type} (st : DataValidationSystem α)
    (data : List (String × α)) :
    validate_data st data =
      (all_ok st.validation_rules data,
       { st with validation_errors := all_msgs st.validation_rules data }) := by
  simp [validate_data, validate_fold_spec]

theorem rules_result_fault {α : Type} (field_name : String) (value : α)
    (pre : List (Rule α)) (r : Rule α) (rest : List (Rule α)) (desc : String)
    (hpre : ∀ r0 ∈ pre, r0.rule_func value = Except.ok true)
    (hr : r.rule_func value = Except.error desc) :
    rules_result field_name value (pre ++ r :: rest) = (false, [desc]) := by
  induction pre with
  | nil => simp [rules_result, hr]
  | cons q qs ih =>
    have hq : q.rule_func value = Except.ok true := hpre q (by simp)
    simp only [List.cons_append, rules_result, hq]
    exact ih fun r0 h0 => hpre r0 (by simp [h0])

theorem rules_result_first_false {α : Type} (field_name : String) (value : α)
    (pre : List (Rule α)) (r : Rule α) (rest : List (Rule α))
    (hpre : ∀ r0 ∈ pre, r0.rule_func value = Except.ok true)
    (hr : r.rule_func value = Except.ok false) :
    rules_result field_name value (pre ++ r :: rest) =
      (false, [field_name ++ ": " ++ r.error_message]) := by
  induction pre with
  | nil => simp [rules_result, hr]
  | cons q qs ih =>
    have hq : q.rule_func value = Except.ok true := hpre q (by simp)
    simp only [List.cons_append, rules_result, hq]
    exact ih fun r0 h0 => hpre r0 (by simp [h0])

theorem all_ok_eq_true_iff {α : Type} (dict : List (String × List (Rule α)))
    (data : List (String × α)) :
    all_ok dict data = true ↔
      ∀ p ∈ data, (field_result dict p.1 p.2).1 = true := by
  induction data with
  | nil => simp [all_ok]
  | cons p rest ih =>
    obtain ⟨f, v⟩ := p
    simp [all_ok, ih]

theorem all_msgs_mem {α : Type} (dict : List (String × List (Rule α)))
    (data : List (String × α)) (f : String) (v : α) (m : String)
    (hp : (f, v) ∈ data) (hm : m ∈ (field_result dict f v).2) :
    m ∈ all_msgs dict data := by
  induction data with
  | nil => cases hp
  | cons q rest ih =>
    obtain ⟨g, w⟩ := q
    rcases List.mem_cons.mp hp with h | h
    · obtain ⟨h1, h2⟩ := Prod.mk.injEq .. ▸ h
      subst h1; subst h2
      exact (List.mem_append).mpr (Or.inl hm)
    · exact (List.mem_append).mpr (Or.inr (ih h))

theorem rules_result_len {α : Type} (field_name : String) (value : α)
    (rules : List (Rule α)) :
    (rules_result field_name value rules).2.length =
      if (rules_result field_name value rules).1 then 0 else 1 := by
  induction rules with
  | nil => simp [rules_result]
  | cons r rest ih =>
    cases h : r.rule_func value with
    | error e => simp [rules_result, h]
    | ok b =>
      cases b with
      | false => simp [rules_result, h]
      | true => simp [rules_result, h, ih]

theorem field_result_len {α : Type} (dict : List (String × List (Rule α)))
    (field_name : String) (value : α) :
    (field_result dict field_name value).2.length =
      if (field_result dict field_name value).1 then 0 else 1 := by
  unfold field_result
  cases h : dict.lookup field_name with
  | none => simp
  | some rules => simp [rules_result_len]

/-! Concrete engine instances used for counterexamples and witnesses. -/

/-- An engine over Nat with one rule on "age" whose predicate raises a
fault with description "boom" on every value. -/
def c1_sys : DataValidationSystem Nat :=
  add_validation_rule ⟨[], []⟩ "age"
    (fun _ => Except.error "boom") "Age must be an integer"

/-- An engine over Nat with two rules on "age", registered in this order:
value < 10 (message "too big"), then value < 5 (message "way too big").
On the value 20 both predicates return false. -/
def c3_sys : DataValidationSystem Nat :=
  add_validation_rule
    (add_validation_rule ⟨[], []⟩ "age"
      (fun v => Except.ok (decide (v < 10))) "too big")
    "age" (fun v => Except.ok (decide (v < 5))) "way too big"

/-- C1: the claim states that a predicate fault is recorded as
"<field_name>: <fault description>".  The code appends str(e) of the
raised fault itself, without the field-name prefix: on a rule for "age"
whose predicate raises a fault described "boom", the recorded message is
"boom", not "age: boom". -/
theorem c1_counterexample :
    (validate_field c1_sys "age" 0).1 = false ∧
    (validate_field c1_sys "age" 0).2.validation_errors = ["boom"] ∧
    (validate_field c1_sys "age" 0).2.validation_errors ≠ ["age: boom"] := by
  refine ⟨rfl, rfl, ?_⟩
  intro h
  have h2 : (["boom"] : List String) = ["age: boom"] := by
    calc (["boom"] : List String)
        = (validate_field c1_sys "age" 0).2.validation_errors := rfl
      _ = ["age: boom"] := h
  exact absurd h2 (by decide)

/-- C1 (amended): if, with all earlier rules of the field passing, a
rule's predicate raises a runtime fault, validate_field catches it,
appends the fault's string description alone (no field-name prefix) to
the error log, stops evaluating further rules, and returns false. -/
theorem c1_fault_message {α : Type} (st : DataValidationSystem α)
    (field_name : String) (value : α) (pre : List (Rule α)) (r : Rule α)
    (rest : List (Rule α)) (desc : String)
    (hlook : st.validation_rules.lookup field_name = some (pre ++ r :: rest))
    (hpre : ∀ r0 ∈ pre, r0.rule_func value = Except.ok true)
    (hr : r.rule_func value = Except.error desc) :
    validate_field st field_name value =
      (false, { st with validation_errors := st.validation_errors ++ [desc] }) := by
  have hfr : field_result st.validation_rules field_name value = (false, [desc]) := by
    simp [field_result, hlook,
      rules_result_fault field_name value pre r rest desc hpre hr]
  rw [validate_field_spec, hfr]

/-- C1 witness: the amended statement at the concrete faulting engine. -/
theorem c1_fault_message_witness :
    validate_field c1_sys "age" 0 =
      (false, { c1_sys with validation_errors :=
        c1_sys.validation_errors ++ ["boom"] }) :=
  c1_fault_message c1_sys "age" 0 []
    ⟨fun _ => Except.error "boom", "Age must be an integer"⟩ [] "boom"
    rfl (by simp) rfl

/-- C3: rules are evaluated in registration order; when a rule's predicate
returns false after all earlier rules passed, the message
"<field_name>: <rule message>" of that first failing rule is appended, the
remaining rules (rest, arbitrary) are skipped, and validate_field returns
false — so only the first failing rule's message is recorded even when a
later rule would also fail. -/
theorem c3_first_failing_rule {α : Type} (st : DataValidationSystem α)
    (field_name : String) (value : α) (pre : List (Rule α)) (r : Rule α)
    (rest : List (Rule α))
    (hlook : st.validation_rules.lookup field_name = some (pre ++ r :: rest))
    (hpre : ∀ r0 ∈ pre, r0.rule_func value = Except.ok true)
    (hr : r.rule_func value = Except.ok false) :
    validate_field st field_name value =
      (false, { st with validation_errors := st.validation_errors ++
        [field_name ++ ": " ++ r.error_message] }) := by
  have hfr : field_result st.validation_rules field_name value =
      (false, [field_name ++ ": " ++ r.error_message]) := by
    simp [field_result, hlook,
      rules_result_first_false field_name value pre r rest hpre hr]
  rw [validate_field_spec, hfr]

/-- C3 witness: on the two-rule engine where the value 20 fails both
rules of "age", only the first rule's message "age: too big" is recorded. -/
theorem c3_first_failing_rule_witness :
    validate_field c3_sys "age" 20 =
      (false, { c3_sys with validation_errors :=
        c3_sys.validation_errors ++ ["age" ++ ": " ++ "too big"] }) :=
  c3_first_failing_rule c3_sys "age" 20 []
    ⟨fun v => Except.ok (decide (v < 10)), "too big"⟩
    [⟨fun v => Except.ok (decide (v < 5)), "way too big"⟩]
    rfl (by simp) rfl

/-- C6: a field with no entry in the rule dictionary validates to true
with the engine state (and so the error log) untouched, and prepending
such a field to a record leaves the result of validate_data unchanged, so
unregistered record fields never cause validation to fail. -/
theorem c6_no_rules {α : Type} (st : DataValidationSystem α)
    (field_name : String) (value : α) (data : List (String × α))
    (h : st.validation_rules.lookup field_name = none) :
    validate_field st field_name value = (true, st) ∧
    validate_data st ((field_name, value) :: data) = validate_data st data := by
  constructor
  · simp [validate_field, h]
  · simp [validate_data, validate_fold, validate_field, h]

/-- C6 witness: "name" has no rules in the two-rule engine on "age". -/
theorem c6_no_rules_witness :
    validate_field c3_sys "name" 7 = (true, c3_sys) ∧
    validate_data c3_sys [("name", 7), ("age", 20)] =
      validate_data c3_sys [("age", 20)] :=
  c6_no_rules c3_sys "name" 7 [("age", 20)] rfl

/-- C2: validate_data evaluates every (field, value) pair of the record —
its result is true exactly when every per-field validate_field call (on a
state with the same rule dictionary) returns true — and the error log
after the call is the concatenation of the messages of all fields, so the
failure messages of every failing field are accumulated. -/
theorem c2_all_fields_evaluated {α : Type} (st : DataValidationSystem α)
    (data : List (String × α)) :
    ((validate_data st data).1 = true ↔
      ∀ p ∈ data, (validate_field st p.1 p.2).1 = true) ∧
    (validate_data st data).2.validation_errors =
      all_msgs st.validation_rules data := by
  rw [validate_data_spec]
  refine ⟨?_, rfl⟩
  simp only [validate_field_spec]
  exact all_ok_eq_true_iff st.validation_rules data

/-- C4: even when a reached rule's predicate raises a fault, validate_data
returns an ordinary boolean result (false) and the fault's description
shows up as an entry of the error log: the fault is converted to data
rather than escaping the validation call. -/
theorem c4_fault_never_escapes {α : Type} (st : DataValidationSystem α)
    (data : List (String × α)) (f : String) (v : α) (pre : List (Rule α))
    (r : Rule α) (rest : List (Rule α)) (desc : String)
    (hp : (f, v) ∈ data)
    (hlook : st.validation_rules.lookup f = some (pre ++ r :: rest))
    (hpre : ∀ r0 ∈ pre, r0.rule_func v = Except.ok true)
    (hr : r.rule_func v = Except.error desc) :
    (validate_data st data).1 = false ∧
    desc ∈ (validate_data st data).2.validation_errors := by
  have hfr : field_result st.validation_rules f v = (false, [desc]) := by
    simp [field_result, hlook, rules_result_fault f v pre r rest desc hpre hr]
  rw [validate_data_spec]
  refine ⟨?_, all_msgs_mem st.validation_rules data f v desc hp (by simp [hfr])⟩
  cases hall : all_ok st.validation_rules data with
  | false => rfl
  | true =>
    have h1 := (all_ok_eq_true_iff st.validation_rules data).mp hall (f, v) hp
    simp [hfr] at h1

/-- C4 witness: the faulting engine applied to a record containing the
faulting field. -/
theorem c4_fault_never_escapes_witness :
    (validate_data c1_sys [("age", 0)]).1 = false ∧
    "boom" ∈ (validate_data c1_sys [("age", 0)]).2.validation_errors :=
  c4_fault_never_escapes c1_sys [("age", 0)] "age" 0 []
    ⟨fun _ => Except.error "boom", "Age must be an integer"⟩ [] "boom"
    (by simp) rfl (by simp) rfl

/-- C5: the error log left by validate_data does not depend on the error
log the engine held before the call — two states with the same rule
dictionary but arbitrary prior logs end with the same log, namely exactly
the messages produced by this call. -/
theorem c5_errorlog_reset {α : Type} (st1 st2 : DataValidationSystem α)
    (data : List (String × α))
    (h : st1.validation_rules = st2.validation_rules) :
    get_errors (validate_data st1 data).2 = get_errors (validate_data st2 data).2 ∧
    get_errors (validate_data st1 data).2 = all_msgs st1.validation_rules data := by
  simp [get_errors, validate_data_spec, h]

/-- C5 witness: a stale log entry does not survive a validate_data call. -/
theorem c5_errorlog_reset_witness :
    get_errors (validate_data c3_sys [("age", 20)]).2 =
      get_errors (validate_data
        { c3_sys with validation_errors := ["stale"] } [("age", 20)]).2 ∧
    get_errors (validate_data c3_sys [("age", 20)]).2 =
      all_msgs c3_sys.validation_rules [("age", 20)] :=
  c5_errorlog_reset c3_sys { c3_sys with validation_errors := ["stale"] }
    [("age", 20)] rfl

theorem all_msgs_length {α : Type} (dict : List (String × List (Rule α)))
    (data : List (String × α)) :
    (all_msgs dict data).length =
      (data.filter fun p => !(field_result dict p.1 p.2).1).length := by
  induction data with
  | nil => simp [all_msgs]
  | cons p rest ih =>
    obtain ⟨f, v⟩ := p
    have hlen := field_result_len dict f v
    simp only [all_msgs, List.length_append, List.filter_cons]
    cases hb : (field_result dict f v).1 with
    | true => rw [hb] at hlen; simp [hlen, ih]
    | false => rw [hb] at hlen; simp [hlen, ih, Nat.add_comm]

/-- C7: each field appends no message when it passes and exactly one
message when it fails, whatever the number of its rules, and the length of
the log left by validate_data equals the number of failing fields of the
record — e.g. a record failing exactly two fields yields exactly two
entries. -/
theorem c7_one_message_per_failing_field {α : Type}
    (st : DataValidationSystem α) (data : List (String × α)) :
    (∀ (f : String) (v : α), (field_result st.validation_rules f v).2.length =
      if (field_result st.validation_rules f v).1 then 0 else 1) ∧
    (validate_data st data).2.validation_errors.length =
      (data.filter fun p => !(field_result st.validation_rules p.1 p.2).1).length := by
  refine ⟨fun f v => field_result_len st.validation_rules f v, ?_⟩
  rw [validate_data_spec]
  exact all_msgs_length st.validation_rules data

/-- C8: a second validate_data call with the same record on the state left
by the first returns the same boolean and leaves the same error list (all
embedded predicates are pure functions). -/
theorem c8_idempotent {α : Type} (st : DataValidationSystem α)
    (data : List (String × α)) :
    (validate_data (validate_data st data).2 data).1 = (validate_data st data).1 ∧
    get_errors (validate_data (validate_data st data).2 data).2 =
      get_errors (validate_data st data).2 := by
  simp [get_errors, validate_data_spec]

/-- C10: validate_field never clears the log — two successive direct
validate_field calls leave the prior log as a prefix and append each
call's messages in call order, and get_errors then returns all of them,
not only the last call's. -/
theorem c10_validate_field_accumulates {α : Type} (st : DataValidationSystem α)
    (f1 : String) (v1 : α) (f2 : String) (v2 : α) :
    get_errors (validate_field (validate_field st f1 v1).2 f2 v2).2 =
      st.validation_errors ++ (field_result st.validation_rules f1 v1).2 ++
        (field_result st.validation_rules f2 v2).2 := by
  simp [get_errors, validate_field_spec]

/-! Aliasing model for get_errors.  The source returns
self.validation_errors.copy(): a fresh Python list object with the same
contents, so caller mutation of the returned list cannot change the
engine's list.  Object identity is modelled by a store of list cells
addressed by index: the engine's log lives in one cell, copy() allocates
a fresh cell with equal contents, and mutation overwrites one cell. -/

/-- A store of Python list objects (each a list of strings). -/
structure ErrStore where
  cells : List (List String)

/-- Dereference a cell of the store. -/
def read_cell (h : ErrStore) (i : Nat) : List String :=
  h.cells.getD i []

/-- In-place mutation of the list object in cell i. -/
def write_cell (h : ErrStore) (i : Nat) (l : List String) : ErrStore :=
  ⟨h.cells.set i l⟩

/-- list.copy(): allocate a fresh cell holding the contents of cell i and
return its address. -/
def copy_cell (h : ErrStore) (i : Nat) : Nat × ErrStore :=
  (h.cells.length, ⟨h.cells ++ [read_cell h i]⟩)

/-- get_errors in the aliasing model: return validation_errors.copy(),
where err_cell is the cell holding the engine's validation_errors list. -/
def get_errors_copy (h : ErrStore) (err_cell : Nat) : Nat × ErrStore :=
  copy_cell h err_cell

/-- C9: when the engine's cell holds the log of the most recent
validate_data call, get_errors returns a fresh cell whose contents equal
that log (= the messages recorded by that call), and any caller mutation
of the returned cell leaves the engine's cell — hence what a later
get_errors would copy — unchanged. -/
theorem c9_defensive_copy {α : Type} (h : ErrStore) (i : Nat)
    (st : DataValidationSystem α) (data : List (String × α))
    (hi : i < h.cells.length)
    (hc : read_cell h i = get_errors (validate_data st data).2) :
    read_cell (get_errors_copy h i).2 (get_errors_copy h i).1 =
      all_msgs st.validation_rules data ∧
    (∀ l, read_cell (write_cell (get_errors_copy h i).2 (get_errors_copy h i).1 l) i
        = get_errors (validate_data st data).2) := by
  have hread : read_cell (get_errors_copy h i).2 (get_errors_copy h i).1 =
      read_cell h i := by
    simp [get_errors_copy, copy_cell, read_cell,
      List.getD_append_right h.cells [read_cell h i] [] h.cells.length le_rfl]
  constructor
  · rw [hread, hc, validate_data_spec]
    rfl
  · intro l
    have hset : (h.cells ++ [read_cell h i]).set h.cells.length l =
        h.cells ++ [l] := by
      rw [List.set_append_right h.cells.length l le_rfl]
      simp
    rw [← hc]
    show ((h.cells ++ [read_cell h i]).set h.cells.length l).getD i [] =
      h.cells.getD i []
    rw [hset]
    exact List.getD_append h.cells [l] [] i hi

/-- C9 witness: a one-cell store holding the log of a concrete
validate_data call on the two-rule engine. -/
theorem c9_defensive_copy_witness :
    read_cell (get_errors_copy ⟨[["age" ++ ": " ++ "too big"]]⟩ 0).2
        (get_errors_copy ⟨[["age" ++ ": " ++ "too big"]]⟩ 0).1 =
      all_msgs c3_sys.validation_rules [("age", 20)] ∧
    (∀ l, read_cell (write_cell (get_errors_copy ⟨[["age" ++ ": " ++ "too big"]]⟩ 0).2
        (get_errors_copy ⟨[["age" ++ ": " ++ "too big"]]⟩ 0).1 l) 0
      = get_errors (validate_data c3_sys [("age", 20)]).2) :=
  c9_defensive_copy ⟨[["age" ++ ": " ++ "too big"]]⟩ 0 c3_sys [("age", 20)]
    (by decide) rfl

end Week1
